import Mathlib

/-!
Shallow embedding of the budget-tracker core in src/app.py.

The program keeps one in-memory pandas dataframe (the reactive value
`budget_data`) whose columns are Date, Description, Amount, Vendor,
Budget_Category, Buyer, Notes.  Three read-only views (`month_selector`,
`monthly_totals`, `all_transactions`) derive output from it, and two
effects (`add_new_transaction`, `clear_all_data`) replace it.

Modelling choices, each noted at its definition:
 - `Amount` is modelled as an integer number of cents.  The source stores
   Python floats; sums of two-decimal currency values are exact in cents,
   and `.round(2)` (line 113) is the identity on such values.
 - A calendar date is a (year, month, day) triple of naturals.  Pandas
   `datetime64` values always carry four-digit years (the representable
   range is 1677..2262), which the date-string lemmas below assume.
 - `month_selector` and `monthly_totals` execute
   `data['YearMonth'] = data['Date'].dt.to_period('M')` on the *shared*
   stored dataframe (lines 79 and 104), adding a column in place.  The
   store therefore carries a `hasYearMonth` flag recording whether that
   derived column is present on the stored object.
-/

namespace Budget

/-- Calendar date (no time component), the Date column. -/
structure Date where
  year : Nat
  month : Nat
  day : Nat
deriving DecidableEq, Repr, Inhabited

/-- One row of the budget dataframe: the seven columns built by
`get_sample_data` and `add_new_transaction`.  `amount` is in cents. -/
structure Tx where
  date : Date
  description : String
  amount : Int
  vendor : String
  category : String
  buyer : String
  notes : String
deriving DecidableEq, Repr, Inhabited

/-- The reactive value `budget_data`: the dataframe's rows in insertion
order, plus whether the derived YearMonth column has been assigned onto
this dataframe object in place (lines 79 and 104 of app.py). -/
structure Store where
  rows : List Tx
  hasYearMonth : Bool
deriving DecidableEq, Repr, Inhabited

/-- Lines 11-15: the fixed category list offered by the select widget. -/
def BUDGET_CATEGORIES : List String :=
  ["Housing", "Food", "Clothing", "Education", "Transportation",
   "Communications", "Health", "Recreation", "Other", "Debt",
   "Fast Offering", "Tithing", "Income"]

/-- Lines 18-45: the seeded sample dataframe (amounts in cents). -/
def get_sample_data : Store :=
  { rows :=
      [ { date := ⟨2024, 1, 15⟩, description := "Rent Payment", amount := -120000,
          vendor := "Property Management", category := "Housing", buyer := "John",
          notes := "Monthly rent for apartment" },
        { date := ⟨2024, 1, 20⟩, description := "Grocery Store", amount := -8550,
          vendor := "Safeway", category := "Food", buyer := "Jane",
          notes := "Weekly grocery shopping" },
        { date := ⟨2024, 1, 25⟩, description := "Gas Station", amount := -4500,
          vendor := "Shell", category := "Transportation", buyer := "John",
          notes := "Fill up tank" },
        { date := ⟨2024, 2, 5⟩, description := "Internet Bill", amount := -7500,
          vendor := "Comcast", category := "Communications", buyer := "John",
          notes := "Monthly internet service" },
        { date := ⟨2024, 2, 10⟩, description := "Restaurant", amount := -3200,
          vendor := "Local Diner", category := "Food", buyer := "Jane",
          notes := "Dinner with friends" },
        { date := ⟨2024, 2, 15⟩, description := "Salary", amount := 350000,
          vendor := "Company", category := "Income", buyer := "John",
          notes := "Bi-weekly paycheck" } ],
    hasYearMonth := false }

/-- The store's current contents (the dataframe's rows). -/
def snapshot (s : Store) : List Tx := s.rows

/-- The `.dt.to_period('M')` projection of a row: its (year, month) pair. -/
def ym (t : Tx) : Nat × Nat := (t.date.year, t.date.month)

/-! ### Display formatting (lines 85, 120, 135, 136) -/

/-- Numeral of `n` zero-padded to `k` digits (most significant first);
for `n < 10 ^ k` these are exactly the `k` decimal digits. -/
def padNum : Nat → Nat → List Char
  | 0, _ => []
  | k + 1, n => Nat.digitChar (n / 10 ^ k) :: padNum k (n % 10 ^ k)

/-- Inserting a comma before every third digit, walking the reversed
(least-significant-first) digit list; `k` counts digits already emitted. -/
def commaGroupRev : List Char → Nat → List Char
  | [], _ => []
  | c :: cs, k =>
    if 0 < k ∧ k % 3 = 0 then ',' :: c :: commaGroupRev cs (k + 1)
    else c :: commaGroupRev cs (k + 1)

/-- Decimal numeral of `n` with thousands separators, as Python's
format spec `,` produces. -/
def group3 (n : Nat) : List Char :=
  (commaGroupRev (Nat.toDigits 10 n).reverse 0).reverse

/-- Python `f"$\x7bx:,.2f\x7d"` on the currency value `cents / 100`:
dollar sign, minus sign for negatives, thousands-separated dollars,
point, two cent digits (lines 120 and 135). -/
def fmtCurrency (cents : Int) : String :=
  String.mk ('$' :: ((if cents < 0 then ['-'] else []) ++
    group3 (cents.natAbs / 100) ++ '.' :: padNum 2 (cents.natAbs % 100)))

/-- Characters of `strftime('%Y-%m-%d')` (line 136): four year digits,
dash, two month digits, dash, two day digits. -/
def formatDateChars (d : Date) : List Char :=
  padNum 4 d.year ++ '-' :: padNum 2 d.month ++ '-' :: padNum 2 d.day

/-- The `YYYY-MM-DD` date string of line 136. -/
def formatDate (d : Date) : String :=
  String.mk (formatDateChars d)

/-! ### month_selector (lines 72-93) -/

/-- Descending order on (year, month) pairs, as `sorted(..., reverse=True)`
on `pd.Period` values compares chronologically. -/
def ymGe (a b : Nat × Nat) : Prop :=
  b.1 < a.1 ∨ (b.1 = a.1 ∧ b.2 ≤ a.2)

instance : DecidableRel ymGe := fun a b => by
  unfold ymGe; exact inferInstance

instance : IsTotal (Nat × Nat) ymGe := by
  constructor; intro a b; unfold ymGe; omega

instance : IsTrans (Nat × Nat) ymGe := by
  constructor; intro a b c; unfold ymGe; omega

/-- Lines 72-93: with no data the selector renders no month list;
otherwise it assigns the YearMonth column onto the stored dataframe in
place (line 79) and offers `sorted(data['YearMonth'].unique(),
reverse=True)`.  Returns the month choices and the post-call store. -/
def month_selector (s : Store) : List (Nat × Nat) × Store :=
  if s.rows.length = 0 then ([], s)
  else
    (((s.rows.map ym).dedup).insertionSort ymGe, { s with hasYearMonth := true })

/-! ### monthly_totals (lines 95-122) -/

/-- Ascending order on category names; pandas compares strings
lexicographically, as Lean's linear order on `String` does. -/
def strLe (a b : String) : Prop := a ≤ b

instance : DecidableRel strLe := fun a b => by
  unfold strLe; exact inferInstance

instance : IsTotal String strLe := by
  constructor; intro a b; exact le_total a b

instance : IsTrans String strLe := by
  constructor; intro a b c; exact le_trans

/-- Line 105: the rows whose date falls in the selected period. -/
def monthFilter (rows : List Tx) (p : Nat × Nat) : List Tx :=
  rows.filter (fun t => ym t = p)

/-- Lines 111-117: `groupby('Budget_Category').agg(sum, count)` over the
month's rows.  Pandas emits one row per distinct key, keys sorted
ascending; the later `.sort_values('Category')` (line 122) re-sorts the
already-sorted, duplicate-free keys and is the identity.  `.round(2)`
(line 113) is the identity on exact cent sums. -/
def category_totals (md : List Tx) : List (String × Int × Nat) :=
  (((md.map Tx.category).dedup).insertionSort strLe).map (fun c =>
    (c, ((md.filter (fun t => t.category = c)).map Tx.amount).sum,
        (md.filter (fun t => t.category = c)).length))

/-- Lines 95-122: empty table when the store is empty or no month is
selected (line 99, before any mutation); otherwise the YearMonth column
is assigned in place (line 104), rows are filtered to the period, an
empty table is returned when none match, and otherwise the grouped sums
with the Total column formatted as currency (line 120).  Returns the
(Category, Total, Transaction Count) rows and the post-call store. -/
def monthly_totals (s : Store) (selected_month : Option (Nat × Nat)) :
    List (String × String × Nat) × Store :=
  if s.rows.length = 0 ∨ selected_month = none then ([], s)
  else
    match selected_month with
    | none => ([], s)
    | some p =>
      let s' : Store := { s with hasYearMonth := true }
      let md := monthFilter s.rows p
      if md.length = 0 then ([], s')
      else
        ((category_totals md).map (fun r => (r.1, fmtCurrency r.2.1, r.2.2)), s')

/-! ### all_transactions (lines 127-143) -/

/-- One row of the display table (line 131's column order): every field
rendered as a string except the transaction count-free raw texts. -/
structure DisplayRow where
  date : String
  description : String
  amount : String
  vendor : String
  category : String
  buyer : String
  notes : String
deriving DecidableEq, Repr, Inhabited

/-- Lines 134-141: the presentation copy of one row (currency-formatted
amount, `YYYY-MM-DD` date, Budget_Category relabeled Category). -/
def display (t : Tx) : DisplayRow :=
  { date := formatDate t.date, description := t.description,
    amount := fmtCurrency t.amount, vendor := t.vendor,
    category := t.category, buyer := t.buyer, notes := t.notes }

/-- The Date-column string of the row at position `i` (element `i` of the
mapped Date column of line 136), as its character sequence: Python
compares strings lexicographically by character, which is `List.Lex` on
the character list. -/
def dateKey (rows : List Tx) (i : Nat) : List Char :=
  formatDateChars (rows.getD i default).date

/-- Stable ascending comparison of positions into the REVERSED Date
column: pandas `nargsort` reverses the values (and the index array)
before taking the ascending argsort, so position `p` of the reversed
array holds row `n - 1 - p`; numpy's stable argsort orders positions by
key, ties by position. -/
def revPosLe (rows : List Tx) (p q : Nat) : Prop :=
  List.Lex (· < ·) (dateKey rows (rows.length - 1 - p))
      (dateKey rows (rows.length - 1 - q))
    ∨ (dateKey rows (rows.length - 1 - p) = dateKey rows (rows.length - 1 - q)
        ∧ p ≤ q)

instance (rows : List Tx) : DecidableRel (revPosLe rows) := fun p q => by
  unfold revPosLe; exact inferInstance

instance (rows : List Tx) : IsTotal Nat (revPosLe rows) := by
  constructor; intro p q
  unfold revPosLe
  rcases lt_trichotomy (dateKey rows (rows.length - 1 - p))
      (dateKey rows (rows.length - 1 - q)) with h | h | h
  · exact Or.inl (Or.inl h)
  · rcases Nat.le_total p q with hpq | hpq
    · exact Or.inl (Or.inr ⟨h, hpq⟩)
    · exact Or.inr (Or.inr ⟨h.symm, hpq⟩)
  · exact Or.inr (Or.inl h)

instance (rows : List Tx) : IsTrans Nat (revPosLe rows) := by
  constructor; intro p q r h1 h2
  unfold revPosLe at *
  rcases h1 with h1 | ⟨h1, hle1⟩
  · rcases h2 with h2 | ⟨h2, _⟩
    · exact Or.inl (lt_trans (α := List Char) h1 h2)
    · exact Or.inl (h2 ▸ h1)
  · rcases h2 with h2 | ⟨h2, hle2⟩
    · exact Or.inl (h1 ▸ h2)
    · exact Or.inr ⟨h1.trans h2, hle1.trans hle2⟩

/-- The row order `sort_values('Date', ascending=False)` produces
(line 143): pandas `nargsort` reverses the values and the index array,
takes an ascending argsort of the reversed values (numpy's argsort is
stable on the small arrays this code encounters), sends the argsort
positions through the reversed index array (`p` to `n - 1 - p`), and
reverses the resulting indexer.  The two reversals cancel on equal-key
runs, so equal-date rows keep their insertion order. -/
def tx_order (s : Store) : List Nat :=
  (((List.range s.rows.length).insertionSort (revPosLe s.rows)).map
      (fun p => s.rows.length - 1 - p)).reverse

/-- Lines 127-143: empty display for an empty store; otherwise the
presentation copy of every row (the store itself is copied, not
mutated), ordered by `tx_order`. -/
def all_transactions (s : Store) : List DisplayRow :=
  if s.rows.length = 0 then []
  else (tx_order s).map (fun i => display (s.rows.getD i default))

/-! ### add_new_transaction (lines 145-164) and clear_all_data (166-171) -/

/-- The form fields read by `add_new_transaction`. -/
structure NewTxInput where
  date : Date
  description : String
  amount : Int
  vendor : String
  category : String
  buyer : String
  notes : String
deriving DecidableEq, Repr, Inhabited

/-- The failure `req(...)` raises when a required field is falsy. -/
inductive ValidationError where
  | requiredFieldMissing
deriving DecidableEq, Repr

/-- Lines 151-159: the new dataframe row; an empty notes field is
coerced to the empty string (line 158). -/
def mkTx (inp : NewTxInput) : Tx :=
  { date := inp.date, description := inp.description, amount := inp.amount,
    vendor := inp.vendor, category := inp.category, buyer := inp.buyer,
    notes := if inp.notes = "" then "" else inp.notes }

/-- Lines 145-164: `req` aborts unless description, vendor and buyer are
all non-empty (line 148, before anything is built); otherwise the new
row is concatenated to the end (`pd.concat` keeps the existing columns,
so the YearMonth flag is unchanged) and the store replaced. -/
def add_new_transaction (s : Store) (inp : NewTxInput) :
    Except ValidationError Store :=
  if inp.description = "" ∨ inp.vendor = "" ∨ inp.buyer = "" then
    .error .requiredFieldMissing
  else
    .ok { s with rows := s.rows ++ [mkTx inp] }

/-- The reactive effect around `add_new_transaction`: on a `req` failure
the effect aborts and the store keeps its old value. -/
def add_transaction_effect (s : Store) (inp : NewTxInput) : Store :=
  match add_new_transaction s inp with
  | .ok s2 => s2
  | .error _ => s

/-- Lines 166-171: replace the store with a fresh empty dataframe that
has only the seven base columns. -/
def clear_all_data (_s : Store) : Store :=
  { rows := [], hasYearMonth := false }

/-! ### Chronological order on dates, and concrete inputs used in proofs -/

/-- Strict chronological order on calendar dates. -/
def dateLtx (a b : Date) : Prop :=
  a.year < b.year ∨ (a.year = b.year ∧
    (a.month < b.month ∨ (a.month = b.month ∧ a.day < b.day)))

instance : DecidableRel dateLtx := fun a b => by
  unfold dateLtx; exact inferInstance

/-- Dates representable in the dataframe's datetime64 Date column: pandas
timestamps span 1677..2262, so years always print as four digits and
months and days as two. -/
def ValidDate (d : Date) : Prop :=
  1000 ≤ d.year ∧ d.year ≤ 9999 ∧ 1 ≤ d.month ∧ d.month ≤ 12
    ∧ 1 ≤ d.day ∧ d.day ≤ 31

instance : DecidablePred ValidDate := fun d => by
  unfold ValidDate; exact inferInstance

/-- Concrete valid submission used by witnesses. -/
def okInput : NewTxInput :=
  { date := ⟨2024, 3, 1⟩, description := "Lunch", amount := -1250,
    vendor := "Cafe", category := "Food", buyer := "Jane", notes := "" }

/-- Submission whose category lies outside BUDGET_CATEGORIES. -/
def badCategoryInput : NewTxInput :=
  { date := ⟨2024, 3, 1⟩, description := "Power bill", amount := -5000,
    vendor := "Utility Co", category := "Utilities", buyer := "John",
    notes := "" }

/-- Store holding two transactions that share a date, inserted "first"
then "second". -/
def tieStore : Store :=
  { rows :=
      [ { date := ⟨2024, 1, 15⟩, description := "first", amount := -100,
          vendor := "A", category := "Food", buyer := "B", notes := "" },
        { date := ⟨2024, 1, 15⟩, description := "second", amount := -200,
          vendor := "A", category := "Food", buyer := "B", notes := "" } ],
    hasYearMonth := false }

/-! ### Helper lemmas -/

/-- The notes coercion of line 158 is the identity on strings. -/
theorem mkTx_notes (inp : NewTxInput) : (mkTx inp).notes = inp.notes := by
  unfold mkTx
  by_cases h : inp.notes = "" <;> simp [h]

/-- With all three required fields non-empty, `req` passes and the new row
is concatenated at the end. -/
theorem add_new_transaction_ok (s : Store) (inp : NewTxInput)
    (hd : inp.description ≠ "") (hv : inp.vendor ≠ "") (hb : inp.buyer ≠ "") :
    add_new_transaction s inp = .ok { s with rows := s.rows ++ [mkTx inp] } := by
  unfold add_new_transaction
  rw [if_neg]
  simp [hd, hv, hb]

/-! ### C2 -/

/-- C2: for every valid transaction (non-empty description, vendor, buyer),
append stores exactly the input row at the end: the snapshot grows by one,
the old rows form an unchanged prefix, the last element is the new row, and
every field of the stored row equals the corresponding input field. -/
theorem add_new_transaction_valid_appends (s : Store) (inp : NewTxInput)
    (hd : inp.description ≠ "") (hv : inp.vendor ≠ "") (hb : inp.buyer ≠ "") :
    add_new_transaction s inp = .ok { s with rows := s.rows ++ [mkTx inp] }
    ∧ (s.rows ++ [mkTx inp]).length = s.rows.length + 1
    ∧ (s.rows ++ [mkTx inp]).take s.rows.length = s.rows
    ∧ (s.rows ++ [mkTx inp]).getLast? = some (mkTx inp)
    ∧ (mkTx inp).date = inp.date ∧ (mkTx inp).description = inp.description
    ∧ (mkTx inp).amount = inp.amount ∧ (mkTx inp).vendor = inp.vendor
    ∧ (mkTx inp).category = inp.category ∧ (mkTx inp).buyer = inp.buyer
    ∧ (mkTx inp).notes = inp.notes := by
  refine ⟨add_new_transaction_ok s inp hd hv hb, by simp, List.take_left _ _,
    List.getLast?_concat _, rfl, rfl, rfl, rfl, rfl, rfl, mkTx_notes inp⟩

/-- Witness for C2 at a concrete store and valid input. -/
theorem add_new_transaction_valid_appends_witness :
    okInput.description ≠ "" ∧ okInput.vendor ≠ "" ∧ okInput.buyer ≠ ""
    ∧ add_new_transaction get_sample_data okInput
        = .ok { get_sample_data with rows := get_sample_data.rows ++ [mkTx okInput] } :=
  ⟨by decide, by decide, by decide,
    (add_new_transaction_valid_appends get_sample_data okInput
      (by decide) (by decide) (by decide)).1⟩

/-! ### C3 -/

/-- C3: append fails with ValidationError exactly when description, vendor
or buyer is empty, and on failure the effect leaves the store unchanged
(`req` aborts on line 148 before anything is built or stored). -/
theorem add_new_transaction_invalid_iff (s : Store) (inp : NewTxInput) :
    (add_new_transaction s inp = .error .requiredFieldMissing
      ↔ (inp.description = "" ∨ inp.vendor = "" ∨ inp.buyer = ""))
    ∧ ((inp.description = "" ∨ inp.vendor = "" ∨ inp.buyer = "") →
        add_transaction_effect s inp = s) := by
  by_cases h : inp.description = "" ∨ inp.vendor = "" ∨ inp.buyer = "" <;>
    simp [add_new_transaction, add_transaction_effect, h]

/-! ### C4 -/

/-- C4: clearing always succeeds and empties everything: the snapshot is
the empty sequence, the transaction table is empty and the month list is
empty, whatever the prior store held. -/
theorem clear_all_data_empties (s : Store) :
    snapshot (clear_all_data s) = []
    ∧ (all_transactions (clear_all_data s)).length = 0
    ∧ (month_selector (clear_all_data s)).1.length = 0 := by
  refine ⟨rfl, ?_, ?_⟩ <;> simp [all_transactions, month_selector, clear_all_data]

/-! ### C8 (code bug: readers mutate the shared store) -/

/-- C8: evaluating the failing behavior: on the seeded non-empty store both
`month_selector` (line 79) and `monthly_totals` (line 104) assign the
derived YearMonth column onto the shared stored dataframe in place, so the
store after the read differs from the store before it, while
`all_transactions` works on a copy and leaves the store unchanged. -/
theorem readers_mutate_sample_store :
    (month_selector get_sample_data).2 ≠ get_sample_data
    ∧ (monthly_totals get_sample_data (some (2024, 1))).2 ≠ get_sample_data
    ∧ (month_selector get_sample_data).2.hasYearMonth = true
    ∧ get_sample_data.hasYearMonth = false := by
  refine ⟨?_, ?_, rfl, rfl⟩ <;> decide

/-! ### C9 -/

/-- C9 counterexample: an append whose category is not in the fixed
enumeration is not rejected: it succeeds and the row is stored with that
category (line 148 checks only description, vendor, buyer). -/
theorem add_unknown_category_stored :
    badCategoryInput.category ∉ BUDGET_CATEGORIES
    ∧ add_new_transaction (clear_all_data get_sample_data) badCategoryInput
        = .ok { rows := [mkTx badCategoryInput], hasYearMonth := false }
    ∧ (mkTx badCategoryInput).category = "Utilities" := by
  refine ⟨by decide, ?_, rfl⟩
  rfl

/-- C9 (amended): append performs no category validation: any submission
with non-empty description, vendor and buyer is stored as given, even when
its category is outside the fixed enumeration; the enumeration constrains
only the UI select widget's choices (line 59). -/
theorem add_new_transaction_ignores_category (s : Store) (inp : NewTxInput)
    (hc : inp.category ∉ BUDGET_CATEGORIES)
    (hd : inp.description ≠ "") (hv : inp.vendor ≠ "") (hb : inp.buyer ≠ "") :
    add_new_transaction s inp = .ok { s with rows := s.rows ++ [mkTx inp] }
    ∧ (mkTx inp).category = inp.category
    ∧ inp.category ∉ BUDGET_CATEGORIES :=
  ⟨add_new_transaction_ok s inp hd hv hb, rfl, hc⟩

/-- Witness for the amended C9 at a concrete out-of-enumeration category. -/
theorem add_new_transaction_ignores_category_witness :
    badCategoryInput.category ∉ BUDGET_CATEGORIES
    ∧ add_new_transaction get_sample_data badCategoryInput
        = .ok { get_sample_data with
                  rows := get_sample_data.rows ++ [mkTx badCategoryInput] } :=
  ⟨by decide,
    (add_new_transaction_ignores_category get_sample_data badCategoryInput
      (by decide) (by decide) (by decide) (by decide)).1⟩

/-! ### C5 -/

/-- C5: the month choices are exactly the distinct (year, month) pairs of
the stored transactions, duplicate-free, sorted descending (most recent
first), and the list is empty precisely when the store is empty. -/
theorem month_selector_months_spec (s : Store) :
    (month_selector s).1.Nodup
    ∧ List.Sorted ymGe (month_selector s).1
    ∧ (∀ p, p ∈ (month_selector s).1 ↔ ∃ t ∈ s.rows, ym t = p)
    ∧ ((month_selector s).1 = [] ↔ s.rows = []) := by
  by_cases h : s.rows.length = 0
  · have hr : s.rows = [] := List.length_eq_zero.mp h
    simp [month_selector, h, hr]
  · have hr : s.rows ≠ [] := fun hh => h (by simp [hh])
    simp only [month_selector, if_neg h]
    refine ⟨?_, ?_, ?_, ?_⟩
    · exact (List.perm_insertionSort ymGe _).symm.nodup (List.nodup_dedup _)
    · exact List.sorted_insertionSort ymGe _
    · intro p
      rw [List.mem_insertionSort, List.mem_dedup, List.mem_map]
    · apply iff_of_false
      · intro hnil
        have hperm := List.perm_insertionSort ymGe ((s.rows.map ym).dedup)
        rw [hnil] at hperm
        have hd : (s.rows.map ym).dedup = [] := hperm.symm.eq_nil
        rw [List.dedup_eq_nil, List.map_eq_nil_iff] at hd
        exact hr hd
      · exact hr

/-! ### C1 helper lemmas -/

/-- Splitting the sum of amounts along a decidable predicate on rows. -/
theorem sum_amount_filter_split (q : Tx → Prop) [DecidablePred q] (l : List Tx) :
    ((l.filter (fun t => q t)).map Tx.amount).sum
      + ((l.filter (fun t => ¬q t)).map Tx.amount).sum
      = (l.map Tx.amount).sum := by
  induction l with
  | nil => simp
  | cons t ts ih =>
    by_cases h : q t <;> simp [List.filter_cons, h, decide_not] <;>
      simp [decide_not] at ih <;> omega

/-- Summing the per-category filtered amounts over a duplicate-free list of
categories that covers every row recovers the total sum. -/
theorem sum_amount_partition (cs : List String) :
    ∀ l : List Tx, cs.Nodup → (∀ t ∈ l, t.category ∈ cs) →
    (cs.map (fun c => ((l.filter (fun t => t.category = c)).map Tx.amount).sum)).sum
      = (l.map Tx.amount).sum := by
  induction cs with
  | nil =>
    intro l _ hcov
    have hl : l = [] := by
      cases l with
      | nil => rfl
      | cons t ts => exact absurd (hcov t (List.mem_cons_self t ts)) (List.not_mem_nil _)
    subst hl; simp
  | cons c cs ih =>
    intro l hnd hcov
    have hcnotin : c ∉ cs := (List.nodup_cons.mp hnd).1
    have hndtail : cs.Nodup := (List.nodup_cons.mp hnd).2
    have hmapeq : cs.map
          (fun c2 => ((l.filter (fun t => t.category = c2)).map Tx.amount).sum)
        = cs.map (fun c2 => (((l.filter (fun t => ¬t.category = c)).filter
            (fun t => t.category = c2)).map Tx.amount).sum) := by
      apply List.map_congr_left
      intro c2 hc2
      have hne : c2 ≠ c := fun hh => hcnotin (hh ▸ hc2)
      have hfil : l.filter (fun t => t.category = c2)
          = (l.filter (fun t => ¬t.category = c)).filter
              (fun t => t.category = c2) := by
        rw [List.filter_filter]
        apply List.filter_congr
        intro t _
        by_cases hcat : t.category = c2
        · have hnc : ¬t.category = c := fun hh => hne (hcat ▸ hh)
          simp [hcat, hnc, hne]
        · simp [hcat]
      rw [hfil]
    have hcov2 : ∀ t ∈ l.filter (fun t => ¬t.category = c), t.category ∈ cs := by
      intro t ht
      obtain ⟨htl, hdec⟩ := List.mem_filter.mp ht
      have hnc : ¬t.category = c := by simpa using hdec
      cases List.mem_cons.mp (hcov t htl) with
      | inl hh => exact absurd hh hnc
      | inr hh => exact hh
    calc (((c :: cs).map
          (fun c2 => ((l.filter (fun t => t.category = c2)).map Tx.amount).sum)).sum)
        = ((l.filter (fun t => t.category = c)).map Tx.amount).sum
          + (cs.map (fun c2 =>
              ((l.filter (fun t => t.category = c2)).map Tx.amount).sum)).sum := by
          simp
      _ = ((l.filter (fun t => t.category = c)).map Tx.amount).sum
          + ((l.filter (fun t => ¬t.category = c)).map Tx.amount).sum := by
          rw [hmapeq, ih (l.filter (fun t => ¬t.category = c)) hndtail hcov2]
      _ = (l.map Tx.amount).sum := sum_amount_filter_split (fun t => t.category = c) l

/-- The grouped table of `category_totals`: duplicate-free keys sorted
ascending, one row per category occurring in the input, exact sums and
counts per row, and conservation of the total sum. -/
theorem category_totals_spec (md : List Tx) :
    ((category_totals md).map Prod.fst).Nodup
    ∧ List.Sorted strLe ((category_totals md).map Prod.fst)
    ∧ (∀ c, c ∈ (category_totals md).map Prod.fst ↔ ∃ t ∈ md, t.category = c)
    ∧ (∀ r ∈ category_totals md,
        r.2.1 = ((md.filter (fun t => t.category = r.1)).map Tx.amount).sum
        ∧ r.2.2 = (md.filter (fun t => t.category = r.1)).length
        ∧ 0 < r.2.2)
    ∧ ((category_totals md).map (fun r => r.2.1)).sum = (md.map Tx.amount).sum := by
  have hfst : (category_totals md).map Prod.fst
      = ((md.map Tx.category).dedup).insertionSort strLe := by
    unfold category_totals
    have h1 : List.map (Prod.fst ∘ fun c : String =>
        (c, ((md.filter (fun t => t.category = c)).map Tx.amount).sum,
          (md.filter (fun t => t.category = c)).length))
        (((md.map Tx.category).dedup).insertionSort strLe)
      = List.map id (((md.map Tx.category).dedup).insertionSort strLe) :=
      List.map_congr_left (fun c _ => rfl)
    rw [List.map_map, h1]
    exact List.map_id _
  have hnd : (((md.map Tx.category).dedup).insertionSort strLe).Nodup :=
    (List.perm_insertionSort strLe _).symm.nodup (List.nodup_dedup _)
  have hmemiff : ∀ c, c ∈ ((md.map Tx.category).dedup).insertionSort strLe
      ↔ ∃ t ∈ md, t.category = c := by
    intro c
    rw [List.mem_insertionSort, List.mem_dedup, List.mem_map]
  refine ⟨?_, ?_, ?_, ?_, ?_⟩
  · rw [hfst]; exact hnd
  · rw [hfst]; exact List.sorted_insertionSort strLe _
  · intro c; rw [hfst]; exact hmemiff c
  · intro r hr
    unfold category_totals at hr
    obtain ⟨c, hc, rfl⟩ := List.mem_map.mp hr
    refine ⟨rfl, rfl, ?_⟩
    obtain ⟨t, ht, hcat⟩ := (hmemiff c).mp hc
    exact List.length_pos.mpr
      (List.ne_nil_of_mem (List.mem_filter.mpr ⟨ht, by simp [hcat]⟩))
  · have hcov : ∀ t ∈ md, t.category ∈ ((md.map Tx.category).dedup).insertionSort strLe :=
      fun t ht => (hmemiff t.category).mpr ⟨t, ht, rfl⟩
    calc ((category_totals md).map (fun r => r.2.1)).sum
        = ((((md.map Tx.category).dedup).insertionSort strLe).map
            (fun c => ((md.filter (fun t => t.category = c)).map Tx.amount).sum)).sum := by
          unfold category_totals
          rw [List.map_map]
          exact congrArg List.sum (List.map_congr_left (fun c _ => rfl))
      _ = (md.map Tx.amount).sum :=
          sum_amount_partition _ md hnd hcov

/-! ### C1 -/

/-- C1: the filtered month is exactly the transactions whose date falls in
the given (year, month); the grouped table has one duplicate-free row per
category occurring there, sorted ascending by category name, each row
carrying the exact sum and positive count of its category's matching rows;
the category totals sum to the grand total of the month (conservation);
and `monthly_totals` renders exactly these rows with the Total column
currency-formatted. -/
theorem monthly_totals_correct (s : Store) (p : Nat × Nat) :
    monthFilter s.rows p
        = s.rows.filter (fun t => t.date.year = p.1 ∧ t.date.month = p.2)
    ∧ ((category_totals (monthFilter s.rows p)).map Prod.fst).Nodup
    ∧ List.Sorted strLe ((category_totals (monthFilter s.rows p)).map Prod.fst)
    ∧ (∀ c, c ∈ (category_totals (monthFilter s.rows p)).map Prod.fst
        ↔ ∃ t ∈ monthFilter s.rows p, t.category = c)
    ∧ (∀ r ∈ category_totals (monthFilter s.rows p),
        r.2.1 = (((monthFilter s.rows p).filter
            (fun t => t.category = r.1)).map Tx.amount).sum
        ∧ r.2.2 = ((monthFilter s.rows p).filter
            (fun t => t.category = r.1)).length
        ∧ 0 < r.2.2)
    ∧ ((category_totals (monthFilter s.rows p)).map (fun r => r.2.1)).sum
        = ((monthFilter s.rows p).map Tx.amount).sum
    ∧ (monthly_totals s (some p)).1
        = (category_totals (monthFilter s.rows p)).map
            (fun r => (r.1, fmtCurrency r.2.1, r.2.2)) := by
  obtain ⟨h1, h2, h3, h4, h5⟩ := category_totals_spec (monthFilter s.rows p)
  refine ⟨?_, h1, h2, h3, h4, h5, ?_⟩
  · unfold monthFilter
    apply List.filter_congr
    intro t _
    rw [decide_eq_decide]
    simp [ym, Prod.ext_iff]
  · by_cases h0 : s.rows.length = 0
    · have hr : s.rows = [] := List.length_eq_zero.mp h0
      simp [monthly_totals, monthFilter, category_totals, hr]
    · by_cases hmd : (monthFilter s.rows p).length = 0
      · have hmdnil : monthFilter s.rows p = [] := List.length_eq_zero.mp hmd
        simp [monthly_totals, h0, hmd, hmdnil, category_totals]
      · simp [monthly_totals, h0, hmd]

/-! ### C10 -/

/-- C10: on a non-empty store, selecting a month in which no stored
transaction falls yields an empty table (the length check of line 107),
not an error. -/
theorem monthly_totals_no_match_empty (s : Store) (p : Nat × Nat)
    (hne : s.rows ≠ []) (hnm : ∀ t ∈ s.rows, ym t ≠ p) :
    (monthly_totals s (some p)).1 = [] := by
  have hflt : monthFilter s.rows p = [] := by
    unfold monthFilter
    rw [List.filter_eq_nil_iff]
    intro t ht
    simp [hnm t ht]
  have hlen : ¬s.rows.length = 0 := by
    simpa [List.length_eq_zero] using hne
  simp [monthly_totals, hflt, hlen]

/-- Witness for C10: the seeded store has no May 2023 transaction. -/
theorem monthly_totals_no_match_empty_witness :
    get_sample_data.rows ≠ [] ∧ (∀ t ∈ get_sample_data.rows, ym t ≠ (2023, 5))
    ∧ (monthly_totals get_sample_data (some (2023, 5))).1 = [] :=
  ⟨by decide, by decide,
    monthly_totals_no_match_empty get_sample_data (2023, 5) (by decide) (by decide)⟩


/-! ### C6: lexicographic order of the formatted date strings -/

/-- Ordering a natural by quotient and remainder for a positive modulus. -/
theorem nat_lt_iff_div_lt_or (P a b : Nat) (hP : 0 < P) :
    a < b ↔ a / P < b / P ∨ (a / P = b / P ∧ a % P < b % P) := by
  have ha := Nat.div_add_mod a P
  have hb := Nat.div_add_mod b P
  have hma : a % P < P := Nat.mod_lt _ hP
  have hmb : b % P < P := Nat.mod_lt _ hP
  constructor
  · intro h
    rcases Nat.lt_trichotomy (a / P) (b / P) with hq | hq | hq
    · exact Or.inl hq
    · right
      refine ⟨hq, ?_⟩
      rw [← hq] at hb
      omega
    · exfalso
      have h1 : P * (b / P) + P ≤ P * (a / P) := by
        have h2 : P * (b / P + 1) ≤ P * (a / P) := Nat.mul_le_mul (Nat.le_refl P) hq
        rw [Nat.mul_add, Nat.mul_one] at h2
        exact h2
      omega
  · intro h
    rcases h with hq | ⟨hq, hr⟩
    · have h1 : P * (a / P) + P ≤ P * (b / P) := by
        have h2 : P * (a / P + 1) ≤ P * (b / P) := Nat.mul_le_mul (Nat.le_refl P) hq
        rw [Nat.mul_add, Nat.mul_one] at h2
        exact h2
      omega
    · rw [← hq] at hb
      omega

/-- Decimal digit characters compare like their digits. -/
theorem digitChar_lt_iff : ∀ m, m < 10 → ∀ n, n < 10 →
    (Nat.digitChar m < Nat.digitChar n ↔ m < n) := by decide

/-- Decimal digit characters are distinct for distinct digits. -/
theorem digitChar_inj_iff : ∀ m, m < 10 → ∀ n, n < 10 →
    (Nat.digitChar m = Nat.digitChar n ↔ m = n) := by decide

/-- A padded numeral has exactly its pad width. -/
theorem padNum_length : ∀ k n, (padNum k n).length = k := by
  intro k
  induction k with
  | zero => intro n; rfl
  | succ k ih => intro n; simp [padNum, ih]

/-- Inversion for lexicographic comparison of cons cells. -/
theorem lex_cons_inv {x y : Char} {xs ys : List Char}
    (h : List.Lex (· < ·) (x :: xs) (y :: ys)) :
    x < y ∨ (x = y ∧ List.Lex (· < ·) xs ys) := by
  cases h with
  | rel h1 => exact Or.inl h1
  | cons h1 => exact Or.inr ⟨rfl, h1⟩

/-- Zero-padded equal-width numerals compare lexicographically like the
numbers they print. -/
theorem padNum_lex : ∀ k a b, a < 10 ^ k → b < 10 ^ k →
    (List.Lex (· < ·) (padNum k a) (padNum k b) ↔ a < b) := by
  intro k
  induction k with
  | zero =>
    intro a b ha hb
    rw [Nat.pow_zero] at ha hb
    apply iff_of_false
    · exact List.Lex.not_nil_right _ _
    · omega
  | succ k ih =>
    intro a b ha hb
    have hP : 0 < 10 ^ k := Nat.pos_pow_of_pos k (by norm_num)
    rw [Nat.pow_succ] at ha hb
    have hda : a / 10 ^ k < 10 := by
      rw [Nat.div_lt_iff_lt_mul hP]
      omega
    have hdb : b / 10 ^ k < 10 := by
      rw [Nat.div_lt_iff_lt_mul hP]
      omega
    have hma : a % 10 ^ k < 10 ^ k := Nat.mod_lt _ hP
    have hmb : b % 10 ^ k < 10 ^ k := Nat.mod_lt _ hP
    show List.Lex (· < ·)
        (Nat.digitChar (a / 10 ^ k) :: padNum k (a % 10 ^ k))
        (Nat.digitChar (b / 10 ^ k) :: padNum k (b % 10 ^ k)) ↔ a < b
    constructor
    · intro h
      rcases lex_cons_inv h with h1 | ⟨h1, h2⟩
      · exact (nat_lt_iff_div_lt_or (10 ^ k) a b hP).mpr
          (Or.inl ((digitChar_lt_iff _ hda _ hdb).mp h1))
      · exact (nat_lt_iff_div_lt_or (10 ^ k) a b hP).mpr
          (Or.inr ⟨(digitChar_inj_iff _ hda _ hdb).mp h1, (ih _ _ hma hmb).mp h2⟩)
    · intro h
      rcases (nat_lt_iff_div_lt_or (10 ^ k) a b hP).mp h with h1 | ⟨h1, h2⟩
      · exact List.Lex.rel ((digitChar_lt_iff _ hda _ hdb).mpr h1)
      · have hhead : Nat.digitChar (a / 10 ^ k) = Nat.digitChar (b / 10 ^ k) := by
          rw [h1]
        rw [hhead]
        exact List.Lex.cons ((ih _ _ hma hmb).mpr h2)

/-- Zero-padded equal-width numerals are injective below their width. -/
theorem padNum_inj : ∀ k a b, a < 10 ^ k → b < 10 ^ k →
    padNum k a = padNum k b → a = b := by
  intro k
  induction k with
  | zero =>
    intro a b ha hb _
    rw [Nat.pow_zero] at ha hb
    omega
  | succ k ih =>
    intro a b ha hb h
    have hP : 0 < 10 ^ k := Nat.pos_pow_of_pos k (by norm_num)
    have hma : a % 10 ^ k < 10 ^ k := Nat.mod_lt _ hP
    have hmb : b % 10 ^ k < 10 ^ k := Nat.mod_lt _ hP
    unfold padNum at h
    injection h with h1 h2
    rw [Nat.pow_succ] at ha hb
    have hda : a / 10 ^ k < 10 := by
      rw [Nat.div_lt_iff_lt_mul hP]
      omega
    have hdb : b / 10 ^ k < 10 := by
      rw [Nat.div_lt_iff_lt_mul hP]
      omega
    have hdiv : a / 10 ^ k = b / 10 ^ k := (digitChar_inj_iff _ hda _ hdb).mp h1
    have hmod : a % 10 ^ k = b % 10 ^ k := ih _ _ hma hmb h2
    have ha2 := Nat.div_add_mod a (10 ^ k)
    have hb2 := Nat.div_add_mod b (10 ^ k)
    rw [← hdiv, ← hmod] at hb2
    exact ha2.symm.trans hb2

/-- Lexicographic comparison of appended lists with equal-length fronts
splits into front comparison and, on equal fronts, tail comparison. -/
theorem lex_append_iff : ∀ (xs ys u v : List Char), xs.length = ys.length →
    (List.Lex (· < ·) (xs ++ u) (ys ++ v)
      ↔ List.Lex (· < ·) xs ys ∨ (xs = ys ∧ List.Lex (· < ·) u v)) := by
  intro xs
  induction xs with
  | nil =>
    intro ys u v h
    have hys : ys = [] := by
      cases ys with
      | nil => rfl
      | cons y ys => simp at h
    subst hys
    simp only [List.nil_append]
    constructor
    · intro h1
      exact Or.inr ⟨by trivial, h1⟩
    · intro h1
      rcases h1 with h1 | ⟨_, h1⟩
      · exact absurd h1 (List.Lex.not_nil_right _ _)
      · exact h1
  | cons x xs ih =>
    intro ys u v h
    cases ys with
    | nil => simp at h
    | cons y ys =>
      have hlen : xs.length = ys.length := by simpa using h
      simp only [List.cons_append]
      constructor
      · intro hlex
        rcases lex_cons_inv hlex with h1 | ⟨rfl, h2⟩
        · exact Or.inl (List.Lex.rel h1)
        · rcases (ih ys u v hlen).mp h2 with h3 | ⟨h3, h4⟩
          · exact Or.inl (List.Lex.cons h3)
          · exact Or.inr ⟨by rw [h3], h4⟩
      · intro hor
        rcases hor with h1 | ⟨heq, h2⟩
        · rcases lex_cons_inv h1 with h3 | ⟨rfl, h4⟩
          · exact List.Lex.rel h3
          · exact List.Lex.cons ((ih ys u v hlen).mpr (Or.inl h4))
        · injection heq with h3 h4
          subst h3
          subst h4
          exact List.Lex.cons ((ih xs u v rfl).mpr (Or.inr ⟨rfl, h2⟩))

/-- On valid dates, the `YYYY-MM-DD` character strings compare
lexicographically exactly as the dates compare chronologically. -/
theorem formatDateChars_lex_iff (a b : Date) (hva : ValidDate a) (hvb : ValidDate b) :
    List.Lex (· < ·) (formatDateChars a) (formatDateChars b) ↔ dateLtx a b := by
  obtain ⟨hy1a, hy2a, hm1a, hm2a, hd1a, hd2a⟩ := hva
  obtain ⟨hy1b, hy2b, hm1b, hm2b, hd1b, hd2b⟩ := hvb
  have hya : a.year < 10 ^ 4 := by norm_num; omega
  have hyb : b.year < 10 ^ 4 := by norm_num; omega
  have hma : a.month < 10 ^ 2 := by norm_num; omega
  have hmb : b.month < 10 ^ 2 := by norm_num; omega
  have hda : a.day < 10 ^ 2 := by norm_num; omega
  have hdb : b.day < 10 ^ 2 := by norm_num; omega
  have h4 : padNum 4 a.year = padNum 4 b.year ↔ a.year = b.year :=
    ⟨padNum_inj 4 _ _ hya hyb, fun h => by rw [h]⟩
  have heq7 : padNum 4 a.year ++ '-' :: padNum 2 a.month
      = padNum 4 b.year ++ '-' :: padNum 2 b.month
      ↔ (a.year = b.year ∧ a.month = b.month) := by
    constructor
    · intro h
      obtain ⟨h1, h2⟩ := List.append_inj h (by simp [padNum_length])
      injection h2 with _ h3
      exact ⟨padNum_inj 4 _ _ hya hyb h1, padNum_inj 2 _ _ hma hmb h3⟩
    · intro h
      rw [h.1, h.2]
  unfold formatDateChars
  rw [lex_append_iff _ _ _ _ (by simp [padNum_length])]
  rw [lex_append_iff _ _ _ _ (by simp [padNum_length])]
  rw [List.Lex.cons_iff, List.Lex.cons_iff]
  rw [padNum_lex 4 _ _ hya hyb, padNum_lex 2 _ _ hma hmb,
    padNum_lex 2 _ _ hda hdb, h4, heq7]
  unfold dateLtx
  constructor <;> intro h <;> omega

/-- Chronological strict order is irreflexive. -/
theorem dateLtx_irrefl (d : Date) : ¬dateLtx d d := by
  unfold dateLtx
  omega

/-- On valid dates, equal `YYYY-MM-DD` strings mean equal dates. -/
theorem formatDateChars_inj (a b : Date) (hva : ValidDate a) (hvb : ValidDate b)
    (h : formatDateChars a = formatDateChars b) : a = b := by
  by_contra hne
  have htri : dateLtx a b ∨ dateLtx b a := by
    rcases a with ⟨ya, ma, da⟩
    rcases b with ⟨yb, mb, db⟩
    simp only [Date.mk.injEq] at hne
    unfold dateLtx
    simp only []
    omega
  rcases htri with h1 | h1
  · have h2 := (formatDateChars_lex_iff a b hva hvb).mpr h1
    rw [h] at h2
    have h3 := (formatDateChars_lex_iff b b hvb hvb).mp h2
    exact dateLtx_irrefl _ h3
  · have h2 := (formatDateChars_lex_iff b a hvb hva).mpr h1
    rw [h] at h2
    have h3 := (formatDateChars_lex_iff b b hvb hvb).mp h2
    exact dateLtx_irrefl _ h3

/-- An in-range position's `getD` element is a member. -/
theorem getD_mem (l : List Tx) (i : Nat) (h : i < l.length) :
    l.getD i default ∈ l := by
  induction l generalizing i with
  | nil => simp at h
  | cons t ts ih =>
    cases i with
    | zero => simp
    | succ i =>
      rw [List.getD_cons_succ]
      exact List.mem_cons_of_mem _ (ih i (by simpa using h))

/-- Reading every position of a list in order reproduces the list. -/
theorem map_getD_range (l : List Tx) :
    (List.range l.length).map (fun i => l.getD i default) = l := by
  induction l with
  | nil => rfl
  | cons t ts ih =>
    rw [List.length_cons, List.range_succ_eq_map, List.map_cons, List.map_map]
    have hfun : List.map ((fun i => (t :: ts).getD i default) ∘ Nat.succ)
          (List.range ts.length)
        = List.map (fun i => ts.getD i default) (List.range ts.length) :=
      List.map_congr_left (fun i _ => rfl)
    rw [List.getD_cons_zero, hfun, ih]

/-- At the two-row equal-date store the displayed table keeps insertion
order: the double reversal of `nargsort` cancels on the equal-date run. -/
theorem all_transactions_tie_insertion_order :
    all_transactions tieStore
      = [display (tieStore.rows.getD 0 default),
         display (tieStore.rows.getD 1 default)] := by
  rfl

end Budget
